import Mathlib

/-!
Shallow embedding of the combo-event resource allocator of
`fal/src/rsc/xaiefal-events.hpp` (class `XAieComboEvent`) and of the
simulation-backend mask poll of `driver/src/io_backend/ext/xaie_sim.c`,
with theorems checking the specification's claims about them.

Machine integers of the source are embedded as `Nat`/`Int`; bit positions
of the slot bitmaps are `Int` because the source computes them with C `int`
arithmetic (`(Col * 8 + (Row - 1)) * 4` can be negative when `Row = 0`).
A bitmap is embedded as the finite set of positions whose bit is 1.
External collaborators (logical-to-physical event translation, combiner
register programming) are oracle parameters.
-/

namespace AieRT

/-- Driver return codes (the subset reached by the embedded functions). -/
inductive AieRC where
  | XAIE_OK
  | XAIE_ERR
  | XAIE_INVALID_ARGS
deriving DecidableEq

open AieRC

/-- Tile location, `XAie_LocType`: column and row (row 0 is the shim row). -/
structure XAie_LocType where
  Col : Nat
  Row : Nat
deriving DecidableEq

/-- Module kinds of `XAie_ModuleType` used by the combo-event code. -/
inductive XAie_ModuleType where
  | XAIE_CORE_MOD
  | XAIE_MEM_MOD
  | XAIE_PL_MOD
deriving DecidableEq

open XAie_ModuleType

/-- User-visible resource descriptor, `XAie_UserRsc` (fields read by this code). -/
structure XAie_UserRsc where
  Loc : XAie_LocType
  Mod : XAie_ModuleType
  RscId : Nat
deriving DecidableEq

/-- The three process-wide combo-slot bitmaps held by `XAieDevHandle`. -/
structure DevBitmaps where
  XAieComboCoreBits : Finset Int
  XAieComboMemBits : Finset Int
  XAieComboShimBits : Finset Int
deriving DecidableEq

/-- Modelled from the spec: `XAieRsc::alloc_rsc_bit` is declared in
`xaiefal-rsc-base.hpp`, which is not among the given sources.  The spec says
acquire "scans `count` consecutive bits starting at `base` for the first unset
bit, sets it, returns its absolute position; fails (sentinel negative result)
if no bit in range is free".  `none` embeds the negative sentinel. -/
def alloc_rsc_bit (bits : Finset Int) (sbit : Int) (count : Nat) :
    Option (Int × Finset Int) :=
  match (List.range count).find? (fun (k : Nat) => decide ((sbit + (k : Int)) ∉ bits)) with
  | none => none
  | some k => some (sbit + (k : Int), insert (sbit + (k : Int)) bits)

/-- Modelled from the spec: `XAieRsc::clear_rsc_bit` is declared in
`xaiefal-rsc-base.hpp`, not among the given sources.  The spec says release
"clears exactly one bit". -/
def clear_rsc_bit (bits : Finset Int) (pos : Int) : Finset Int :=
  bits.erase pos

/-- Bitmap selected by module kind, as the three-way branch of the source does. -/
def bitsOf (dev : DevBitmaps) (M : XAie_ModuleType) : Finset Int :=
  match M with
  | XAIE_CORE_MOD => dev.XAieComboCoreBits
  | XAIE_MEM_MOD => dev.XAieComboMemBits
  | XAIE_PL_MOD => dev.XAieComboShimBits

/-- Replace the bitmap selected by module kind. -/
def setBits (dev : DevBitmaps) (M : XAie_ModuleType) (b : Finset Int) : DevBitmaps :=
  match M with
  | XAIE_CORE_MOD => { dev with XAieComboCoreBits := b }
  | XAIE_MEM_MOD => { dev with XAieComboMemBits := b }
  | XAIE_PL_MOD => { dev with XAieComboShimBits := b }

/-- Start bit computed by `XAieComboEvent::XAieAllocRsc` per module kind
(xaiefal-events.hpp:273-281), with C `int` arithmetic embedded in `Int`. -/
def sbitOf (L : XAie_LocType) (M : XAie_ModuleType) : Int :=
  match M with
  | XAIE_CORE_MOD => ((L.Col : Int) * 8 + ((L.Row : Int) - 1)) * 4
  | XAIE_MEM_MOD => ((L.Col : Int) * 8 + ((L.Row : Int) - 1)) * 4
  | XAIE_PL_MOD => (L.Col : Int) * 4

/-- Shallow embedding of `XAieComboEvent::XAieAllocRsc`
(xaiefal-events.hpp:260-300).  Note that the source's validity check reads the
fields of the out-parameter `R` (`R.Loc.Row`, `R.Mod`), not `L` and `M`; the
caller `_reserve` passes `R` in unwritten, so those fields carry indeterminate
caller data.  The embedding keeps the check exactly as written.  After the
scan the source tests `if (bit < 0)` (line 291) and returns `XAIE_ERR` without
writing `R`; since `alloc_rsc_bit` mutates the shared bitmap in place, a bit
found at a negative position (negative base from the row-0 underflow) stays
set on that failure path.  The source's final `else` (invalid module
enumerator) is unreachable for the three `XAie_ModuleType` values and is not
represented. -/
def XAieAllocRsc (dev : DevBitmaps) (L : XAie_LocType) (M : XAie_ModuleType)
    (R : XAie_UserRsc) : AieRC × DevBitmaps × XAie_UserRsc :=
  if (R.Loc.Row = 0 ∧ R.Mod ≠ XAIE_PL_MOD) ∨ (R.Loc.Row ≠ 0 ∧ R.Mod = XAIE_PL_MOD) then
    (XAIE_INVALID_ARGS, dev, R)
  else
    match alloc_rsc_bit (bitsOf dev M) (sbitOf L M) 4 with
    | none => (XAIE_ERR, dev, R)
    | some x =>
      if x.1 < 0 then
        (XAIE_ERR, setBits dev M x.2, R)
      else
        (XAIE_OK, setBits dev M x.2,
          { Loc := L, Mod := M, RscId := (x.1 - sbitOf L M).toNat })

/-- Shallow embedding of `XAieComboEvent::XAieReleaseRsc`
(xaiefal-events.hpp:305-327).  Here the checked fields of `R` are the genuine
input (the resource being released). -/
def XAieReleaseRsc (dev : DevBitmaps) (R : XAie_UserRsc) : DevBitmaps :=
  if (R.Loc.Row = 0 ∧ R.Mod ≠ XAIE_PL_MOD) ∨ (R.Loc.Row ≠ 0 ∧ R.Mod = XAIE_PL_MOD) then
    dev
  else
    match R.Mod with
    | XAIE_PL_MOD =>
      { dev with XAieComboShimBits := clear_rsc_bit dev.XAieComboShimBits ((R.Loc.Col : Int) * 4 + (R.RscId : Int)) }
    | XAIE_CORE_MOD =>
      { dev with XAieComboCoreBits := clear_rsc_bit dev.XAieComboCoreBits (((R.Loc.Col : Int) * 8 + ((R.Loc.Row : Int) - 1)) * 4 + (R.RscId : Int)) }
    | XAIE_MEM_MOD =>
      { dev with XAieComboMemBits := clear_rsc_bit dev.XAieComboMemBits (((R.Loc.Col : Int) * 8 + ((R.Loc.Row : Int) - 1)) * 4 + (R.RscId : Int)) }

/-- State of one `XAieComboEvent` object: its fixed location and module, the
member vectors `vEvents`, `vOps`, `vRscs`, and the lifecycle flags read by the
embedded member functions.  Events and ops are embedded as numeric codes. -/
structure ComboEventState where
  Loc : XAie_LocType
  Mod : XAie_ModuleType
  vEvents : List Nat
  vOps : List Nat
  vRscs : List XAie_UserRsc
  Initialized : Bool
  Configured : Bool
deriving DecidableEq

/-- The translation loop of `setEvents` (xaiefal-events.hpp:64-77): walks `vE`
in order, translating each event via the oracle `conv` (embedding the external
`XAie_EventLogicalToPhysicalConv`); on success of entry `i` it stores
`vE[i]` into `vEvents[i]` and continues, on the first failure it stops,
leaving the entries already stored. -/
def commitEvents (conv : Nat → Option Nat) (stored : List Nat) (vE : List Nat)
    (i : Nat) : Bool × List Nat :=
  match vE with
  | [] => (true, stored)
  | e :: rest =>
    match conv e with
    | none => (false, stored)
    | some _ => commitEvents conv (stored.set i e) rest (i + 1)

/-- Shallow embedding of `XAieComboEvent::setEvents` (xaiefal-events.hpp:47-87).
The fourth validation disjunct compares the member `vOps`, not the argument
`vOp`, exactly as the source does.  A translation failure is reported as
`XAIE_INVALID_ARGS` (the spec's translation/invalid-argument error). -/
def setEvents (conv : Nat → Option Nat) (s : ComboEventState) (vE vOp : List Nat) :
    AieRC × ComboEventState :=
  if s.Initialized = false then
    (XAIE_ERR, s)
  else if vE.length ≠ s.vEvents.length ∨ 3 < vOp.length ∨
      (vE.length ≤ 2 ∧ 1 < vOp.length) ∨
      (2 < vE.length ∧ s.vOps.length < 2) then
    (XAIE_INVALID_ARGS, s)
  else
    match commitEvents conv s.vEvents vE 0 with
    | (true, stored) =>
      (XAIE_OK, { s with vEvents := stored, vOps := vOp, Configured := true })
    | (false, stored) =>
      (XAIE_INVALID_ARGS, { s with vEvents := stored })

/-- Shallow embedding of `XAieComboEvent::getInputEvents`
(xaiefal-events.hpp:133-154).  `vE`/`vOp` are the caller's in-out vectors; on
the error path the source leaves them untouched. -/
def getInputEvents (s : ComboEventState) (vE vOp : List Nat) :
    AieRC × List Nat × List Nat :=
  if s.Configured = true then
    (XAIE_OK, s.vEvents, s.vOps)
  else
    (XAIE_ERR, vE, vOp)

/-- Value a fresh `XAie_UserRsc` variable would decode to if its indeterminate
bytes happened to be zero; used only to embed the source's out-of-bounds
`std::vector` reads (`vRscs[j]` with `j ≥ vRscs.size()`) as `getD` defaults. -/
def defaultRsc : XAie_UserRsc :=
  { Loc := { Col := 0, Row := 0 }, Mod := XAIE_CORE_MOD, RscId := 0 }

/-- The rollback loop of `_reserve` (xaiefal-events.hpp:169-171): releases
`vRscs[j]` for every `j < i`. -/
def releaseEarlier (dev : DevBitmaps) (v : List XAie_UserRsc) (i : Nat) : DevBitmaps :=
  (List.range i).foldl (fun d j => XAieReleaseRsc d (v.getD j defaultRsc)) dev

/-- The allocation loop of `_reserve` (xaiefal-events.hpp:164-175).  The fuel
argument counts the remaining iterations (`vEvents.size() - i`); the threaded
`AieRC` mirrors the source's `RC` variable.  On an allocation failure the
source releases the earlier slots but neither breaks out of the loop nor
clears `vRscs`; the embedding reproduces that. -/
def reserveLoop (garbage : Nat → XAie_UserRsc) (L : XAie_LocType)
    (M : XAie_ModuleType) :
    Nat → Nat → DevBitmaps → List XAie_UserRsc → AieRC →
      DevBitmaps × List XAie_UserRsc × AieRC
  | 0, _, dev, v, rc => (dev, v, rc)
  | rem + 1, i, dev, v, _ =>
    let a := XAieAllocRsc dev L M (garbage i)
    if a.1 ≠ XAIE_OK then
      reserveLoop garbage L M rem (i + 1) (releaseEarlier a.2.1 v i) v a.1
    else
      reserveLoop garbage L M rem (i + 1) a.2.1 (v ++ [a.2.2]) a.1

/-- Shallow embedding of `XAieComboEvent::_reserve` (xaiefal-events.hpp:160-189).
`garbage i` supplies the indeterminate fields of the fresh `XAie_UserRsc R`
declared in iteration `i`.  The result is the returned status, the bitmaps,
the new `vRscs`, and the aggregate `Rsc.Mod`/`Rsc.RscId` the source derives
from `vRscs[0]`.  As in the source, the loop's `RC` is dropped and the
function returns `XAIE_OK` unconditionally. -/
def _reserve (garbage : Nat → XAie_UserRsc) (s : ComboEventState)
    (dev : DevBitmaps) :
    AieRC × DevBitmaps × List XAie_UserRsc × XAie_ModuleType × Nat :=
  let r := reserveLoop garbage s.Loc s.Mod s.vEvents.length 0 dev s.vRscs XAIE_OK
  let r0 := r.2.1.getD 0 defaultRsc
  let rid : Nat := if r.2.1.length ≤ 2 then (if r0.RscId < 2 then 0 else 1) else 2
  (XAIE_OK, r.1, r.2.1, r0.Mod, rid)

/-- Combiner registers COMBO0/COMBO1/COMBO2 of one tile module; `none` is the
idle/disabled encoding, `some (op, e1, e2)` a programmed combination. -/
structure ComboRegs where
  combo0 : Option (Nat × Nat × Nat)
  combo1 : Option (Nat × Nat × Nat)
  combo2 : Option (Nat × Nat × Nat)
deriving DecidableEq

/-- Write one combiner register, addressed by its numeric enumerator value
(`XAIE_EVENT_COMBO0 = 0`, `COMBO1 = 1`, `COMBO2 = 2`). -/
def setReg (r : ComboRegs) (id : Nat) (v : Option (Nat × Nat × Nat)) : ComboRegs :=
  if id = 0 then { r with combo0 := v }
  else if id = 1 then { r with combo1 := v }
  else if id = 2 then { r with combo2 := v }
  else r

/-- Modelled from the spec: `XAie_EventComboConfig` is driver code outside the
given sources.  The spec says `start` "programs, through the Register
Transport, one hardware combiner register per pair of consecutive input
events, each with its corresponding ComboOp"; a transport failure is
abstracted by the oracle `fail`, which leaves the register unwritten. -/
def XAie_EventComboConfig (fail : Nat → Bool) (r : ComboRegs)
    (id op e1 e2 : Nat) : AieRC × ComboRegs :=
  if fail id then (XAIE_ERR, r) else (XAIE_OK, setReg r id (some (op, e1, e2)))

/-- Modelled from the spec: `XAie_EventComboReset` is driver code outside the
given sources; it resets one combiner register "to the idle/disabled
encoding". -/
def XAie_EventComboReset (r : ComboRegs) (id : Nat) : ComboRegs :=
  setReg r id none

/-- The rollback loop of `_start` (xaiefal-events.hpp:219-224):
`for (tId = StartCId; tId < ComboId; tId += step)` reset `tId`, where the
source's step is the outer loop index `i`.  The fuel bounds the iteration; in
every reachable case (ids in 0..2, and `StartCId = ComboId` whenever the step
is 0) the source loop performs at most one iteration, so fuel 4 is exact. -/
def resetLoop : ComboRegs → Nat → Nat → Nat → Nat → ComboRegs
  | r, _, _, _, 0 => r
  | r, tId, comboId, step, fuel + 1 =>
    if tId < comboId then
      resetLoop (XAie_EventComboReset r tId) (tId + step) comboId step fuel
    else r

/-- The pairwise programming loop of `_start` (xaiefal-events.hpp:202-227):
`for (i = 0; i < vEvents.size(); i += 2)`.  Out-of-range vector reads of the
source (e.g. `vEvents[i+1]` when `vEvents.size() = 3`) are embedded as `getD`
defaults.  The fuel is `vEvents.length`, enough for the step-2 loop. -/
def startLoop (fail : Nat → Bool) (vE vOps : List Nat)
    (vRscs : List XAie_UserRsc) :
    Nat → Nat → Nat → AieRC → ComboRegs → AieRC × ComboRegs
  | 0, _, _, rc, regs => (rc, regs)
  | fuel + 1, i, startCId, rc, regs =>
    if i < vE.length then
      let comboId : Nat := if (vRscs.getD i defaultRsc).RscId = 0 then 0 else 1
      let startCId2 := if i = 0 then comboId else startCId
      let c := XAie_EventComboConfig fail regs comboId
        (vOps.getD (i / 2) 0) (vE.getD i 0) (vE.getD (i + 1) 0)
      if c.1 ≠ XAIE_OK then
        (c.1, resetLoop c.2 startCId2 comboId i 4)
      else
        startLoop fail vE vOps vRscs fuel (i + 2) startCId2 c.1 c.2
    else (rc, regs)

/-- Shallow embedding of `XAieComboEvent::_start` (xaiefal-events.hpp:198-238).
After the pairwise loop, if it succeeded and three ops are configured, the
source programs COMBO2 with `vOps[2]` and `vEvents[0]` twice; on failure of
that call it only logs and returns the error, resetting nothing. -/
def _start (fail : Nat → Bool) (s : ComboEventState) (regs : ComboRegs) :
    AieRC × ComboRegs :=
  let r := startLoop fail s.vEvents s.vOps s.vRscs s.vEvents.length 0 0 XAIE_OK regs
  if r.1 = XAIE_OK ∧ s.vOps.length = 3 then
    XAie_EventComboConfig fail r.2 2 (s.vOps.getD 2 0)
      (s.vEvents.getD 0 0) (s.vEvents.getD 0 0)
  else r

/-- The busy-wait loop of `XAie_SimIO_MaskPoll` (xaie_sim.c:202-209).
`reads k` is the value returned by the k-th call of `XAie_SimIO_Read32`;
the first argument of the pair is the success flag, the second the index
after the last read performed (= the number of reads). -/
def maskPollLoop (reads : Nat → Nat) (Mask Value : Nat) :
    Nat → Nat → Bool × Nat
  | k, 0 => (false, k)
  | k, t + 1 =>
    if reads k &&& Mask = Value then (true, k + 1)
    else maskPollLoop reads Mask Value (k + 1) t

/-- Shallow embedding of `XAie_SimIO_MaskPoll` (xaie_sim.c:193-212): a zero
timeout is bumped to one tick, then the loop runs at most `TimeOutUs` times,
returning success on the first read satisfying `(read & Mask) = Value`. -/
def XAie_SimIO_MaskPoll (reads : Nat → Nat) (Mask Value TimeOutUs : Nat) :
    Bool × Nat :=
  let T := if TimeOutUs = 0 then TimeOutUs + 1 else TimeOutUs
  maskPollLoop reads Mask Value 0 T

/-! Helper lemmas about the bit-scan, the translation loop and the poll loop. -/

theorem find?_range_none (p : Nat → Bool) (n : Nat) :
    (List.range n).find? p = none ↔ ∀ k, k < n → p k = false := by
  rw [List.find?_eq_none]
  constructor
  · intro h k hk
    have := h k (List.mem_range.mpr hk)
    simpa using this
  · intro h x hx
    simp [h x (List.mem_range.mp hx)]

theorem find?_range_some (p : Nat → Bool) :
    ∀ (n k : Nat), (List.range n).find? p = some k →
      k < n ∧ p k = true ∧ ∀ j, j < k → p j = false := by
  intro n
  induction n with
  | zero => intro k h; simp [List.range_zero] at h
  | succ m ih =>
    intro k h
    rw [List.range_succ, List.find?_append] at h
    cases hm : (List.range m).find? p with
    | some k2 =>
      rw [hm] at h
      simp only [Option.or_some, Option.some.injEq] at h
      subst h
      rcases ih k2 hm with ⟨h1, h2, h3⟩
      exact ⟨Nat.lt_succ_of_lt h1, h2, h3⟩
    | none =>
      rw [hm] at h
      simp only [Option.none_or, List.find?_singleton] at h
      by_cases hp : p m
      · rw [if_pos hp] at h
        cases h
        refine ⟨Nat.lt_succ_self m, hp, ?_⟩
        intro j hj
        exact (find?_range_none p m).mp hm j hj
      · rw [if_neg hp] at h
        cases h

theorem alloc_rsc_bit_eq_none (bits : Finset Int) (sbit : Int) (count : Nat) :
    alloc_rsc_bit bits sbit count = none ↔
      ∀ k : Nat, k < count → sbit + (k : Int) ∈ bits := by
  unfold alloc_rsc_bit
  cases hf : (List.range count).find? (fun (k : Nat) => decide ((sbit + (k : Int)) ∉ bits)) with
  | none =>
    simp only [hf]
    constructor
    · intro _ k hk
      have := (find?_range_none _ _).mp hf k hk
      simpa using this
    · intro _; trivial
  | some k =>
    simp only [hf]
    constructor
    · intro h; cases h
    · intro h
      rcases find?_range_some _ _ _ hf with ⟨hk, hp, _⟩
      simp only [decide_eq_true_eq] at hp
      exact absurd (h k hk) hp

theorem alloc_rsc_bit_eq_some (bits : Finset Int) (sbit : Int) (count : Nat)
    (pos : Int) (bits2 : Finset Int)
    (h : alloc_rsc_bit bits sbit count = some (pos, bits2)) :
    ∃ k : Nat, k < count ∧ pos = sbit + (k : Int) ∧ sbit + (k : Int) ∉ bits ∧
      (∀ j : Nat, j < k → sbit + (j : Int) ∈ bits) ∧
      bits2 = insert (sbit + (k : Int)) bits := by
  unfold alloc_rsc_bit at h
  cases hf : (List.range count).find? (fun (k : Nat) => decide ((sbit + (k : Int)) ∉ bits)) with
  | none => rw [hf] at h; cases h
  | some k =>
    rw [hf] at h
    simp only [Option.some.injEq, Prod.mk.injEq] at h
    rcases find?_range_some _ _ _ hf with ⟨hk, hp, hmin⟩
    simp only [decide_eq_true_eq] at hp
    refine ⟨k, hk, h.1.symm, hp, ?_, h.2.symm⟩
    intro j hj
    have := hmin j hj
    simpa using this

theorem bitsOf_setBits_same (dev : DevBitmaps) (M : XAie_ModuleType)
    (b : Finset Int) : bitsOf (setBits dev M b) M = b := by
  cases M <;> rfl

theorem bitsOf_setBits_other (dev : DevBitmaps) (M M2 : XAie_ModuleType)
    (b : Finset Int) (h : M2 ≠ M) :
    bitsOf (setBits dev M b) M2 = bitsOf dev M2 := by
  cases M <;> cases M2 <;> first | rfl | exact absurd rfl h

theorem commitEvents_false (conv : Nat → Option Nat) :
    ∀ (vE stored : List Nat) (i : Nat),
      (∃ k, k < vE.length ∧ conv (vE.getD k 0) = none) →
      (commitEvents conv stored vE i).1 = false := by
  intro vE
  induction vE with
  | nil =>
    intro stored i h
    rcases h with ⟨k, hk, _⟩
    simp at hk
  | cons e rest ih =>
    intro stored i h
    rcases h with ⟨k, hk, hc⟩
    cases hce : conv e with
    | none => simp only [commitEvents, hce]
    | some v =>
      simp only [commitEvents, hce]
      apply ih
      cases k with
      | zero =>
        rw [List.getD_cons_zero] at hc
        rw [hce] at hc
        cases hc
      | succ k2 =>
        refine ⟨k2, by simpa using hk, ?_⟩
        simpa using hc

theorem take_set_succ : ∀ (l : List Nat) (i : Nat) (e : Nat), i < l.length →
    (l.set i e).take (i + 1) = l.take i ++ [e] := by
  intro l
  induction l with
  | nil => intro i e h; simp at h
  | cons x xs ih =>
    intro i e h
    cases i with
    | zero => simp
    | succ j =>
      have hj : j < xs.length := by simpa using h
      simp [List.take_succ_cons, ih j e hj]

theorem commitEvents_true (conv : Nat → Option Nat) :
    ∀ (vE stored : List Nat) (i : Nat),
      (commitEvents conv stored vE i).1 = true →
      i + vE.length = stored.length →
      (commitEvents conv stored vE i).2 = stored.take i ++ vE := by
  intro vE
  induction vE with
  | nil =>
    intro stored i h hlen
    have hi : i = stored.length := by simpa using hlen
    simp [commitEvents, hi, List.take_length]
  | cons e rest ih =>
    intro stored i h hlen
    cases hce : conv e with
    | none => simp only [commitEvents, hce] at h; cases h
    | some v =>
      simp only [commitEvents, hce] at h ⊢
      have hlen2 : (i + 1) + rest.length = (stored.set i e).length := by
        simp only [List.length_set]
        simp only [List.length_cons] at hlen
        omega
      rw [ih (stored.set i e) (i + 1) h hlen2]
      rw [take_set_succ stored i e (by simp only [List.length_cons] at hlen; omega)]
      simp

theorem maskPollLoop_true_iff (reads : Nat → Nat) (Mask Value : Nat) :
    ∀ (fuel k : Nat),
      ((maskPollLoop reads Mask Value k fuel).1 = true ↔
        ∃ i, k ≤ i ∧ i < k + fuel ∧ reads i &&& Mask = Value) := by
  intro fuel
  induction fuel with
  | zero =>
    intro k
    simp only [maskPollLoop]
    constructor
    · intro h; cases h
    · rintro ⟨i, h1, h2, _⟩; omega
  | succ t ih =>
    intro k
    simp only [maskPollLoop]
    by_cases hc : reads k &&& Mask = Value
    · simp only [if_pos hc]
      constructor
      · intro _; exact ⟨k, Nat.le_refl k, by omega, hc⟩
      · intro _; trivial
    · simp only [if_neg hc]
      rw [ih (k + 1)]
      constructor
      · rintro ⟨i, h1, h2, h3⟩
        exact ⟨i, by omega, by omega, h3⟩
      · rintro ⟨i, h1, h2, h3⟩
        refine ⟨i, ?_, by omega, h3⟩
        rcases Nat.eq_or_lt_of_le h1 with he | hl
        · exact absurd (he ▸ h3) hc
        · omega

theorem maskPollLoop_count (reads : Nat → Nat) (Mask Value : Nat) :
    ∀ (fuel k : Nat), (maskPollLoop reads Mask Value k fuel).2 ≤ k + fuel := by
  intro fuel
  induction fuel with
  | zero => intro k; simp [maskPollLoop]
  | succ t ih =>
    intro k
    simp only [maskPollLoop]
    by_cases hc : reads k &&& Mask = Value
    · simp [if_pos hc]
    · simp only [if_neg hc]
      have := ih (k + 1)
      omega

/-! Concrete inputs used by the closed theorems below. -/

/-- Indeterminate-field oracle whose fresh `XAie_UserRsc` values happen to pass
the (misdirected) validity check of `XAieAllocRsc`. -/
def g1 : Nat → XAie_UserRsc :=
  fun _ => { Loc := { Col := 0, Row := 1 }, Mod := XAIE_CORE_MOD, RscId := 0 }

/-- A configured 2-event resource at tile (0,1), core module. -/
def s1 : ComboEventState :=
  { Loc := { Col := 0, Row := 1 }, Mod := XAIE_CORE_MOD, vEvents := [5, 6],
    vOps := [1], vRscs := [], Initialized := true, Configured := true }

/-- Bitmaps in which tile (0,1)'s core range {0,1,2,3} has exactly one free
bit (bit 0): the first acquisition of a 2-slot reserve succeeds, the second
fails. -/
def dev1 : DevBitmaps :=
  { XAieComboCoreBits := {1, 2, 3}, XAieComboMemBits := {},
    XAieComboShimBits := {} }

/-- Translation oracle for which every logical event is valid. -/
def convOK : Nat → Option Nat := fun e => some e

/-- A fresh 3-event resource straight after construction (`vOps` empty). -/
def s2 : ComboEventState :=
  { Loc := { Col := 0, Row := 1 }, Mod := XAIE_CORE_MOD, vEvents := [0, 0, 0],
    vOps := [], vRscs := [], Initialized := true, Configured := false }

/-- Translation oracle that rejects event 7 and accepts everything else. -/
def conv3 : Nat → Option Nat := fun e => if e = 7 then none else some e

/-- A fresh 2-event resource straight after construction. -/
def s3 : ComboEventState :=
  { Loc := { Col := 0, Row := 1 }, Mod := XAIE_CORE_MOD, vEvents := [0, 0],
    vOps := [], vRscs := [], Initialized := true, Configured := false }

/-- Slot descriptor with the given slot id at tile (0,1), core module. -/
def mkR (n : Nat) : XAie_UserRsc :=
  { Loc := { Col := 0, Row := 1 }, Mod := XAIE_CORE_MOD, RscId := n }

/-- A reserved 4-event resource with the ascending slot ids 0..3 a successful
`_reserve` yields, three ops, symbolic events/ops. -/
def s4 (e0 e1 e2 e3 o0 o1 o2 : Nat) : ComboEventState :=
  { Loc := { Col := 0, Row := 1 }, Mod := XAIE_CORE_MOD,
    vEvents := [e0, e1, e2, e3], vOps := [o0, o1, o2],
    vRscs := [mkR 0, mkR 1, mkR 2, mkR 3], Initialized := true,
    Configured := true }

/-- All three combiner registers at the idle encoding. -/
def idleRegs : ComboRegs := { combo0 := none, combo1 := none, combo2 := none }

/-- Empty bitmaps. -/
def dev0 : DevBitmaps :=
  { XAieComboCoreBits := {}, XAieComboMemBits := {}, XAieComboShimBits := {} }

/-- Indeterminate out-parameter content that passes the validity check. -/
def R6 : XAie_UserRsc :=
  { Loc := { Col := 0, Row := 1 }, Mod := XAIE_CORE_MOD, RscId := 0 }

/-! Claim theorems. -/

/-- C1: the claim says that when a single-slot acquisition fails during
`reserve`, the call releases the slots acquired earlier and returns an error,
leaving the resource holding no slots.  The code contradicts this: in the run
below the first acquisition succeeds, the second fails (conjuncts 1 and 2),
yet `_reserve` still returns `XAIE_OK` (conjunct 3) and leaves the released
slot's descriptor in `vRscs` (conjunct 4) — the loop's `RC` is dropped and the
function ends with an unconditional `return XAIE_OK`
(xaiefal-events.hpp:188). -/
theorem C1_reserve_bug :
    (XAieAllocRsc dev1 s1.Loc s1.Mod (g1 0)).1 = AieRC.XAIE_OK ∧
    (XAieAllocRsc (XAieAllocRsc dev1 s1.Loc s1.Mod (g1 0)).2.1 s1.Loc s1.Mod
      (g1 1)).1 = AieRC.XAIE_ERR ∧
    (_reserve g1 s1 dev1).1 = AieRC.XAIE_OK ∧
    (_reserve g1 s1 dev1).2.2.1 ≠ ([] : List XAie_UserRsc) := by
  decide

/-- C2: the claim says `setEvents` on an n-event resource with n events and a
valid op count (2..3 ops when n > 2) succeeds and configures the resource.
The code contradicts this for every n > 2: the validation at
xaiefal-events.hpp:58 reads the member `vOps` (empty on a fresh object)
instead of the argument `vOp`, so the call below — 3 events, all translatable,
2 ops — is rejected with `XAIE_INVALID_ARGS` and the state is unchanged. -/
theorem C2_setEvents_bug :
    setEvents convOK s2 [1, 2, 3] [4, 5] = (AieRC.XAIE_INVALID_ARGS, s2) ∧
    s2.Configured = false := by
  decide

/-- C3 counterexample: the claim says a `setEvents` call whose k-th
translation fails leaves the stored input events without any commitment.
In the run below translation fails at k = 1 and the call does return an
error, but the stored events change from [0, 0] to [5, 0]: the event before
the failing index was committed (xaiefal-events.hpp:75 writes `vEvents[i]`
before the failure at a later index is discovered). -/
theorem C3_counterexample :
    (setEvents conv3 s3 [5, 7] [1]).1 ≠ AieRC.XAIE_OK ∧
    (setEvents conv3 s3 [5, 7] [1]).2.vEvents = [5, 0] ∧
    (setEvents conv3 s3 [5, 7] [1]).2.vEvents ≠ s3.vEvents := by
  decide

/-- C6: the claim says an allocation request whose location and module kind
mismatch (here: row 0 with the core module) returns `XAIE_INVALID_ARGS`
without modifying any bitmap.  The code contradicts this: the validity check
at xaiefal-events.hpp:267 reads the fields of the unwritten out-parameter `R`
instead of `L` and `M`, so with indeterminate content `R6` the mismatched
request at column 1 passes the check, scans the core bitmap from base
(1*8 + (0-1))*4 = 28, returns `XAIE_OK`, and sets bit 28. -/
theorem C6_alloc_mismatch_bug :
    (XAieAllocRsc dev0 { Col := 1, Row := 0 } XAIE_CORE_MOD R6).1 =
      AieRC.XAIE_OK ∧
    (XAieAllocRsc dev0 { Col := 1, Row := 0 } XAIE_CORE_MOD R6).1 ≠
      AieRC.XAIE_INVALID_ARGS ∧
    (28 : Int) ∈
      (XAieAllocRsc dev0 { Col := 1, Row := 0 } XAIE_CORE_MOD R6).2.1.XAieComboCoreBits ∧
    (XAieAllocRsc dev0 { Col := 1, Row := 0 } XAIE_CORE_MOD R6).2.1 ≠ dev0 := by
  decide

/-- C4 counterexample: the claim says that whenever a combiner programming
call fails during `start` — including the top-level COMBO2 call of a 4-input
resource — every combiner register already written in that call is reset to
idle before the error returns.  In the run below only the COMBO2 call fails:
`_start` returns the error, but the two pairwise registers written earlier in
the same call are still programmed (not idle), because the COMBO2 failure
path (xaiefal-events.hpp:231-235) only logs and returns. -/
theorem C4_counterexample :
    _start (fun i => decide (i = 2)) (s4 1 2 3 4 11 12 13) idleRegs =
      (AieRC.XAIE_ERR,
        { combo0 := some (11, 1, 2), combo1 := some (12, 3, 4), combo2 := none }) ∧
    (_start (fun i => decide (i = 2)) (s4 1 2 3 4 11 12 13) idleRegs).2.combo0 ≠
      none ∧
    (_start (fun i => decide (i = 2)) (s4 1 2 3 4 11 12 13) idleRegs).2.combo1 ≠
      none := by
  decide

/-- C4 amended: for a reserved 4-input resource (slots 0..3 as a successful
reserve yields, 3 ops), a failure of either pairwise combiner programming
call rolls back every register written during the call before the error
returns; but a failure of the top-level COMBO2 call returns the error with
the two pairwise registers left programmed (no rollback).  On full success
all three registers are programmed (COMBO2 with `vEvents[0]` twice, as the
source writes). -/
theorem C4_amended_start_rollback (fail : Nat → Bool)
    (e0 e1 e2 e3 o0 o1 o2 : Nat) (init : ComboRegs) :
    (fail 0 = true →
      _start fail (s4 e0 e1 e2 e3 o0 o1 o2) init = (AieRC.XAIE_ERR, init)) ∧
    (fail 0 = false → fail 1 = true →
      _start fail (s4 e0 e1 e2 e3 o0 o1 o2) init =
        (AieRC.XAIE_ERR, { init with combo0 := none })) ∧
    (fail 0 = false → fail 1 = false → fail 2 = true →
      _start fail (s4 e0 e1 e2 e3 o0 o1 o2) init =
        (AieRC.XAIE_ERR,
          { init with combo0 := some (o0, e0, e1), combo1 := some (o1, e2, e3) })) ∧
    (fail 0 = false → fail 1 = false → fail 2 = false →
      _start fail (s4 e0 e1 e2 e3 o0 o1 o2) init =
        (AieRC.XAIE_OK,
          { combo0 := some (o0, e0, e1), combo1 := some (o1, e2, e3),
            combo2 := some (o2, e0, e0) })) := by
  refine ⟨?_, ?_, ?_, ?_⟩
  · intro h0
    simp [_start, startLoop, s4, mkR, defaultRsc, XAie_EventComboConfig,
      XAie_EventComboReset, resetLoop, setReg, h0]
  · intro h0 h1
    simp [_start, startLoop, s4, mkR, defaultRsc, XAie_EventComboConfig,
      XAie_EventComboReset, resetLoop, setReg, h0, h1]
  · intro h0 h1 h2
    simp [_start, startLoop, s4, mkR, defaultRsc, XAie_EventComboConfig,
      XAie_EventComboReset, resetLoop, setReg, h0, h1, h2]
  · intro h0 h1 h2
    simp [_start, startLoop, s4, mkR, defaultRsc, XAie_EventComboConfig,
      XAie_EventComboReset, resetLoop, setReg, h0, h1, h2]

/-- C4 amended witness: the amended theorem applied at the counterexample's
inputs (only COMBO2 fails), with each hypothesis discharged concretely. -/
theorem C4_amended_start_rollback_witness :
    _start (fun i => decide (i = 3)) (s4 1 2 3 4 11 12 13) idleRegs =
      (AieRC.XAIE_OK,
        { combo0 := some (11, 1, 2), combo1 := some (12, 3, 4),
          combo2 := some (13, 1, 1) }) :=
  (C4_amended_start_rollback (fun i => decide (i = 3)) 1 2 3 4 11 12 13
    idleRegs).2.2.2 (by decide) (by decide) (by decide)

/-- C8: on the simulation backend, the mask poll succeeds exactly when one of
the reads performed within the (zero-bumped) timeout satisfies
`(read &&& Mask) = Value`, and a zero timeout performs exactly one check. -/
theorem C8_maskPoll_iff (reads : Nat → Nat) (Mask Value TimeOutUs : Nat) :
    ((XAie_SimIO_MaskPoll reads Mask Value TimeOutUs).1 = true ↔
      ∃ i, i < max TimeOutUs 1 ∧ reads i &&& Mask = Value) ∧
    (XAie_SimIO_MaskPoll reads Mask Value 0).2 = 1 := by
  constructor
  · have hT : (if TimeOutUs = 0 then TimeOutUs + 1 else TimeOutUs) =
        max TimeOutUs 1 := by
      split <;> omega
    unfold XAie_SimIO_MaskPoll
    rw [hT, maskPollLoop_true_iff]
    constructor
    · rintro ⟨i, _, h2, h3⟩
      exact ⟨i, by omega, h3⟩
    · rintro ⟨i, h1, h3⟩
      exact ⟨i, by omega, by omega, h3⟩
  · unfold XAie_SimIO_MaskPoll
    simp only [if_pos rfl]
    simp only [maskPollLoop]
    split <;> rfl

/-- C9: the simulation-backend mask poll performs at most
`max TimeOutUs 1` reads: the loop counter is bumped to 1 when the caller
passes 0 and strictly decreases each iteration, so the poll terminates. -/
theorem C9_maskPoll_bounded (reads : Nat → Nat) (Mask Value TimeOutUs : Nat) :
    (XAie_SimIO_MaskPoll reads Mask Value TimeOutUs).2 ≤ max TimeOutUs 1 := by
  have hT : (if TimeOutUs = 0 then TimeOutUs + 1 else TimeOutUs) =
      max TimeOutUs 1 := by
    split <;> omega
  unfold XAie_SimIO_MaskPoll
  rw [hT]
  show (maskPollLoop reads Mask Value 0 (max TimeOutUs 1)).2 ≤ max TimeOutUs 1
  have := maskPollLoop_count reads Mask Value (max TimeOutUs 1) 0
  omega

/-- C10: a slot-release request whose location and module kind mismatch (row 0
with a non-interface module, or a nonzero row with the interface module)
returns without clearing any bit: all three bitmaps are unchanged. -/
theorem C10_release_mismatch_frame (dev : DevBitmaps) (R : XAie_UserRsc)
    (h : (R.Loc.Row = 0 ∧ R.Mod ≠ XAIE_PL_MOD) ∨
      (R.Loc.Row ≠ 0 ∧ R.Mod = XAIE_PL_MOD)) :
    XAieReleaseRsc dev R = dev := by
  unfold XAieReleaseRsc
  rw [if_pos h]

/-- C10 witness: releasing a descriptor claiming row 0 and the core module
leaves the bitmaps untouched. -/
theorem C10_release_mismatch_frame_witness :
    XAieReleaseRsc dev1
      { Loc := { Col := 3, Row := 0 }, Mod := XAIE_CORE_MOD, RscId := 2 } =
      dev1 :=
  C10_release_mismatch_frame dev1
    { Loc := { Col := 3, Row := 0 }, Mod := XAIE_CORE_MOD, RscId := 2 }
    (by decide)

/-- C3 amended: when logical-to-physical translation fails for some event of
a `setEvents` call on an unconfigured resource, the call returns the
translation/invalid-argument error, the state does not become Configured, and
a subsequent `getInputEvents` reports the ordering error as if no events were
ever set; the stored input events, however, may be left with the events
before the failing index committed (see the counterexample). -/
theorem C3_amended_rollback (conv : Nat → Option Nat) (s : ComboEventState)
    (vE vOp : List Nat)
    (hinit : s.Initialized = true) (hconf : s.Configured = false)
    (hlen : vE.length = s.vEvents.length) (hop3 : vOp.length ≤ 3)
    (hop1 : ¬(vE.length ≤ 2 ∧ 1 < vOp.length))
    (hop2 : ¬(2 < vE.length ∧ s.vOps.length < 2))
    (hfail : ∃ k, k < vE.length ∧ conv (vE.getD k 0) = none) :
    (setEvents conv s vE vOp).1 = AieRC.XAIE_INVALID_ARGS ∧
    (setEvents conv s vE vOp).2.Configured = false ∧
    ∀ a b, getInputEvents (setEvents conv s vE vOp).2 a b =
      (AieRC.XAIE_ERR, a, b) := by
  have hcf := commitEvents_false conv vE s.vEvents 0 hfail
  have hni : ¬(s.Initialized = false) := by simp [hinit]
  have hval : ¬(vE.length ≠ s.vEvents.length ∨ 3 < vOp.length ∨
      (vE.length ≤ 2 ∧ 1 < vOp.length) ∨
      (2 < vE.length ∧ s.vOps.length < 2)) := by
    intro hcontra
    rcases hcontra with h | h | h | h
    · exact h hlen
    · omega
    · exact hop1 h
    · exact hop2 h
  unfold setEvents
  rw [if_neg hni, if_neg hval]
  rcases hc : commitEvents conv s.vEvents vE 0 with ⟨b, stored⟩
  rw [hc] at hcf
  simp only at hcf
  subst hcf
  refine ⟨rfl, hconf, ?_⟩
  intro a b
  simp [getInputEvents, hconf]

/-- C3 amended witness: the amended theorem at the counterexample's inputs
(translation fails at index 1). -/
theorem C3_amended_rollback_witness :
    (setEvents conv3 s3 [5, 7] [1]).1 = AieRC.XAIE_INVALID_ARGS :=
  (C3_amended_rollback conv3 s3 [5, 7] [1] (by decide) (by decide) (by decide)
    (by decide) (by decide) (by decide) ⟨1, by decide, by decide⟩).1

/-- C7: after a successful `setEvents` with events `vE` and ops `vOp`, a
subsequent `getInputEvents` succeeds and returns exactly `vE` and `vOp` in
the order they were passed in, whatever the caller's vectors held before. -/
theorem C7_roundtrip (conv : Nat → Option Nat) (s : ComboEventState)
    (vE vOp a b : List Nat)
    (h : (setEvents conv s vE vOp).1 = AieRC.XAIE_OK) :
    getInputEvents (setEvents conv s vE vOp).2 a b =
      (AieRC.XAIE_OK, vE, vOp) := by
  unfold setEvents at h ⊢
  by_cases hinit : s.Initialized = false
  · rw [if_pos hinit] at h
    exact absurd (show AieRC.XAIE_ERR = AieRC.XAIE_OK from h) (by decide)
  · rw [if_neg hinit] at h ⊢
    by_cases hval : vE.length ≠ s.vEvents.length ∨ 3 < vOp.length ∨
        (vE.length ≤ 2 ∧ 1 < vOp.length) ∨
        (2 < vE.length ∧ s.vOps.length < 2)
    · rw [if_pos hval] at h
      exact absurd (show AieRC.XAIE_INVALID_ARGS = AieRC.XAIE_OK from h) (by decide)
    · rw [if_neg hval] at h ⊢
      rcases hc : commitEvents conv s.vEvents vE 0 with ⟨bb, stored⟩
      rw [hc] at h
      cases bb with
      | false =>
        exact absurd (show AieRC.XAIE_INVALID_ARGS = AieRC.XAIE_OK from h) (by decide)
      | true =>
        have hlen : vE.length = s.vEvents.length := by
          by_contra hne
          exact hval (Or.inl hne)
        have h1 : (commitEvents conv s.vEvents vE 0).1 = true := by
          rw [hc]
        have hst := commitEvents_true conv vE s.vEvents 0 h1 (by omega)
        rw [hc] at hst
        simp only [List.take_zero, List.nil_append] at hst
        subst hst
        simp [getInputEvents]

/-- C7 witness: a concrete successful `setEvents` with events [5, 6] and ops
[1] round-trips through `getInputEvents`. -/
theorem C7_roundtrip_witness :
    getInputEvents (setEvents convOK s3 [5, 6] [1]).2 [9] [8] =
      (AieRC.XAIE_OK, [5, 6], [1]) :=
  C7_roundtrip convOK s3 [5, 6] [1] [9] [8] (by decide)

/-- C5: for every allocation request that reaches the bit scan (the validity
check passed) and whose module/row pairing is matched — the interface module,
or a compute/memory row (row at least 1), so the base is non-negative as for
every well-formed request — the scanned base is `column * 4` for the
interface (shim) module and `(column * 8 + (row - 1)) * 4` for the core and
memory modules; the scan covers exactly 4 consecutive bits from that base,
succeeds exactly when one of them is free, and on success sets the first
free bit and returns the slot id equal to that bit's position minus the base
(hence below 4), leaving the other module bitmaps untouched; on failure the
bitmaps are unchanged.  (The sole negative-base request, column 0 row 0 with
core/memory, is reachable only through the misdirected validity check and is
settled under C6.) -/
theorem C5_alloc_offsets (dev : DevBitmaps) (L : XAie_LocType)
    (M : XAie_ModuleType) (R : XAie_UserRsc)
    (hchk : ¬((R.Loc.Row = 0 ∧ R.Mod ≠ XAIE_PL_MOD) ∨
      (R.Loc.Row ≠ 0 ∧ R.Mod = XAIE_PL_MOD)))
    (hrow : M = XAIE_PL_MOD ∨ 1 ≤ L.Row) :
    sbitOf L XAIE_PL_MOD = (L.Col : Int) * 4 ∧
    sbitOf L XAIE_CORE_MOD = ((L.Col : Int) * 8 + ((L.Row : Int) - 1)) * 4 ∧
    sbitOf L XAIE_MEM_MOD = ((L.Col : Int) * 8 + ((L.Row : Int) - 1)) * 4 ∧
    ((XAieAllocRsc dev L M R).1 = AieRC.XAIE_OK ↔
      ∃ k : Nat, k < 4 ∧ sbitOf L M + (k : Int) ∉ bitsOf dev M) ∧
    ((XAieAllocRsc dev L M R).1 = AieRC.XAIE_OK →
      (XAieAllocRsc dev L M R).2.2.RscId < 4 ∧
      sbitOf L M + ((XAieAllocRsc dev L M R).2.2.RscId : Int) ∉ bitsOf dev M ∧
      (∀ j : Nat, j < (XAieAllocRsc dev L M R).2.2.RscId →
        sbitOf L M + (j : Int) ∈ bitsOf dev M) ∧
      bitsOf (XAieAllocRsc dev L M R).2.1 M =
        insert (sbitOf L M + ((XAieAllocRsc dev L M R).2.2.RscId : Int))
          (bitsOf dev M) ∧
      (∀ M2, M2 ≠ M →
        bitsOf (XAieAllocRsc dev L M R).2.1 M2 = bitsOf dev M2)) ∧
    ((XAieAllocRsc dev L M R).1 ≠ AieRC.XAIE_OK →
      (XAieAllocRsc dev L M R).2.1 = dev) := by
  refine ⟨rfl, rfl, rfl, ?_⟩
  have hsbit : 0 ≤ sbitOf L M := by
    rcases hrow with h | h
    · rw [h]
      show (0 : Int) ≤ (L.Col : Int) * 4
      omega
    · cases M with
      | XAIE_PL_MOD =>
        show (0 : Int) ≤ (L.Col : Int) * 4
        omega
      | XAIE_CORE_MOD =>
        show (0 : Int) ≤ ((L.Col : Int) * 8 + ((L.Row : Int) - 1)) * 4
        omega
      | XAIE_MEM_MOD =>
        show (0 : Int) ≤ ((L.Col : Int) * 8 + ((L.Row : Int) - 1)) * 4
        omega
  rcases halloc : alloc_rsc_bit (bitsOf dev M) (sbitOf L M) 4 with _ | ⟨pos, bits2⟩
  · have hres : XAieAllocRsc dev L M R = (AieRC.XAIE_ERR, dev, R) := by
      unfold XAieAllocRsc
      rw [if_neg hchk, halloc]
    have hall := (alloc_rsc_bit_eq_none (bitsOf dev M) (sbitOf L M) 4).mp halloc
    rw [hres]
    refine ⟨?_, ?_, ?_⟩
    · constructor
      · intro hcontra
        exact absurd (show AieRC.XAIE_ERR = AieRC.XAIE_OK from hcontra) (by decide)
      · rintro ⟨k, hk, hfree⟩
        exact absurd (hall k hk) hfree
    · intro hcontra
      exact absurd (show AieRC.XAIE_ERR = AieRC.XAIE_OK from hcontra) (by decide)
    · intro _
      rfl
  · rcases alloc_rsc_bit_eq_some (bitsOf dev M) (sbitOf L M) 4 pos bits2 halloc
      with ⟨k, hk4, hpos, hfree, hmin, hb2⟩
    have hposneg : ¬(pos < 0) := by
      rw [hpos]
      omega
    have hres : XAieAllocRsc dev L M R =
        (AieRC.XAIE_OK, setBits dev M bits2,
          { Loc := L, Mod := M, RscId := (pos - sbitOf L M).toNat }) := by
      unfold XAieAllocRsc
      rw [if_neg hchk, halloc]
      show (if pos < 0 then (AieRC.XAIE_ERR, setBits dev M bits2, R)
          else (AieRC.XAIE_OK, setBits dev M bits2,
            { Loc := L, Mod := M, RscId := (pos - sbitOf L M).toNat })) = _
      rw [if_neg hposneg]
    have hid : (pos - sbitOf L M).toNat = k := by
      rw [hpos]
      simp
    rw [hres]
    refine ⟨?_, ?_, ?_⟩
    · constructor
      · intro _
        exact ⟨k, hk4, hfree⟩
      · intro _
        rfl
    · intro _
      refine ⟨?_, ?_, ?_, ?_, ?_⟩
      · show (pos - sbitOf L M).toNat < 4
        rw [hid]
        exact hk4
      · show sbitOf L M + ((pos - sbitOf L M).toNat : Int) ∉ bitsOf dev M
        rw [hid]
        exact hfree
      · show ∀ j : Nat, j < (pos - sbitOf L M).toNat →
          sbitOf L M + (j : Int) ∈ bitsOf dev M
        rw [hid]
        exact hmin
      · show bitsOf (setBits dev M bits2) M =
          insert (sbitOf L M + ((pos - sbitOf L M).toNat : Int)) (bitsOf dev M)
        rw [bitsOf_setBits_same, hid, hb2]
      · intro M2 hM2
        exact bitsOf_setBits_other dev M M2 bits2 hM2
    · intro hcontra
      exact absurd rfl hcontra

/-- C5 witness: allocating at column 2 of the shim row with empty bitmaps
succeeds (bit `2 * 4 + 0` is free). -/
theorem C5_alloc_offsets_witness :
    (XAieAllocRsc dev0 { Col := 2, Row := 0 } XAIE_PL_MOD
      { Loc := { Col := 0, Row := 0 }, Mod := XAIE_PL_MOD, RscId := 0 }).1 =
      AieRC.XAIE_OK :=
  (C5_alloc_offsets dev0 { Col := 2, Row := 0 } XAIE_PL_MOD
    { Loc := { Col := 0, Row := 0 }, Mod := XAIE_PL_MOD, RscId := 0 }
    (by decide) (Or.inl rfl)).2.2.2.1.mpr ⟨0, by decide, by decide⟩

end AieRT
